import Mathlib

/-!
Verification development for the GopherSnake MC bridge (Go sources:
`chat_server.go`, `auth.go`, `config.go`, plus the code blocks embedded in
`README.md`).  The Go functions relevant to the specification are shallowly
embedded as executable Lean definitions over `List Char` (Go strings) and
explicit oracle parameters for network effects, and the specification's
claims are settled as theorems about those definitions.
-/

namespace GopherSnake

/-- Go strings are modelled as lists of characters. -/
abbrev GoStr := List Char

/-- Shorthand turning a Lean string literal into its character list. -/
def str (s : String) : GoStr := s.data

/-- Model of Go `unicode.IsSpace`: ASCII whitespace plus the Latin-1 and
Unicode `White_Space` code points recognised by the Go standard library. -/
def isGoSpace (c : Char) : Bool :=
  (c == ' ') || (c == '\t') || (c == '\n') || (c.toNat == 11) ||
  (c.toNat == 12) || (c == '\r') || (c.toNat == 0x85) || (c.toNat == 0xA0) ||
  (c.toNat == 0x1680) || (0x2000 ≤ c.toNat && c.toNat ≤ 0x200A) ||
  (c.toNat == 0x2028) || (c.toNat == 0x2029) || (c.toNat == 0x202F) ||
  (c.toNat == 0x205F) || (c.toNat == 0x3000)

/-- Remove trailing characters satisfying `isGoSpace` (the right half of Go
`strings.TrimSpace`). -/
def trimRight : GoStr → GoStr
  | [] => []
  | c :: rest =>
    match trimRight rest with
    | [] => if isGoSpace c then [] else [c]
    | r => c :: r

/-- Model of Go `strings.TrimSpace`: strip leading then trailing
whitespace. -/
def goTrimSpace (s : GoStr) : GoStr := trimRight (s.dropWhile isGoSpace)

/-- Model of Go `strings.HasPrefix`. -/
def goStarts (p s : GoStr) : Bool := p.isPrefixOf s

/-- Model of Go `strings.TrimPrefix`: remove `p` from the front of `s` when
it is present, otherwise return `s` unchanged. -/
def goTrimPref (p s : GoStr) : GoStr := if goStarts p s then s.drop p.length else s

/-- Model of Go `strings.Split` with a single-character separator: the list
of the (possibly empty) chunks of `s` between occurrences of `sep`. -/
def goSplit (sep : Char) : GoStr → List GoStr
  | [] => [[]]
  | c :: rest =>
    let r := goSplit sep rest
    if c = sep then [] :: r else (c :: r.headD []) :: r.tail

instance {ε α : Type} [DecidableEq ε] [DecidableEq α] : DecidableEq (Except ε α) := fun x y =>
  match x, y with
  | .ok a, .ok b =>
    if h : a = b then .isTrue (by rw [h]) else .isFalse (by intro hc; cases hc; exact h rfl)
  | .error a, .error b =>
    if h : a = b then .isTrue (by rw [h]) else .isFalse (by intro hc; cases hc; exact h rfl)
  | .ok _, .error _ => .isFalse (by intro hc; cases hc)
  | .error _, .ok _ => .isFalse (by intro hc; cases hc)

/-- One entry of `auth.XBLToken.AuthorizationToken.DisplayClaims.UserInfo`
(gophertunnel), as populated by `parseXBL3TokenToStruct` in `README.md`. -/
structure UserInfo where
  gamerTag : GoStr
  xuid : GoStr
  userHash : GoStr
deriving DecidableEq, Repr

/-- The parts of gophertunnel's `auth.XBLToken` that the repository reads or
writes: the opaque authorization token value and the user-info claims. -/
structure XBLToken where
  token : GoStr
  userInfo : List UserInfo
deriving DecidableEq, Repr

/-- The failure cases of `parseXBL3TokenToStruct` (`README.md` lines
250-311), one constructor per `fmt.Errorf` site, in source order:
empty input, missing `XBL3.0` scheme, wrong number of `;` segments,
first segment without `x=`, empty user hash, empty XSTS token. -/
inductive ParseErr where
  | emptyToken
  | missingScheme
  | badSplit
  | badUHSTag
  | emptyUHS
  | emptyXSTS
deriving DecidableEq, Repr

/-- The body of `parseXBL3TokenToStruct` after the initial `TrimSpace`,
translated line by line from `README.md` lines 254-311: the `parts[0]` and
`parts[1]` accesses guarded by the `len(parts) != 2` check become `getD`. -/
def parseCore (t : GoStr) : Except ParseErr XBLToken :=
  if t = [] then .error .emptyToken
  else if goStarts (str "XBL3.0") t = false then .error .missingScheme
  else
    let parts := goSplit ';' (goTrimPref (str "XBL3.0 ") t)
    if parts.length ≠ 2 then .error .badSplit
    else
      let uhsPart := parts.getD 0 []
      let xstsToken := parts.getD 1 []
      if goStarts (str "x=") uhsPart = false then .error .badUHSTag
      else if goTrimPref (str "x=") uhsPart = [] then .error .emptyUHS
      else if xstsToken = [] then .error .emptyXSTS
      else .ok ⟨xstsToken, [⟨[], [], goTrimPref (str "x=") uhsPart⟩]⟩

/-- `parseXBL3TokenToStruct` (`README.md` lines 250-311): trim surrounding
whitespace, then validate and split the `XBL3.0 x=<uhs>;<token>` shape. -/
def parseXBL3TokenToStruct (s : GoStr) : Except ParseErr XBLToken :=
  parseCore (goTrimSpace s)

example : parseXBL3TokenToStruct (str "XBL3.0 x=abc;tok") =
    .ok ⟨str "tok", [⟨[], [], str "abc"⟩]⟩ := by decide

example : parseXBL3TokenToStruct (str "XBL3.0 x=;tok") = .error .emptyUHS := by decide

example : parseXBL3TokenToStruct (str "nope") = .error .missingScheme := by decide

example : parseXBL3TokenToStruct (str "  XBL3.0 x=a;b  ") =
    .ok ⟨str "b", [⟨[], [], str "a"⟩]⟩ := by decide

/-! ### Lemmas about the Go string helpers -/

theorem goSplit_no_sep {sep : Char} {l : GoStr} (h : sep ∉ l) : goSplit sep l = [l] := by
  induction l with
  | nil => rfl
  | cons c rest ih =>
    have hc : ¬ c = sep := fun hh => h (hh ▸ List.mem_cons_self c rest)
    have hr : sep ∉ rest := fun hm => h (List.mem_cons_of_mem _ hm)
    simp [goSplit, hc, ih hr]

theorem goSplit_append {sep : Char} {l : GoStr} (r : GoStr) (h : sep ∉ l) :
    goSplit sep (l ++ sep :: r) = l :: goSplit sep r := by
  induction l with
  | nil => simp [goSplit]
  | cons c rest ih =>
    have hc : ¬ c = sep := fun hh => h (hh ▸ List.mem_cons_self c rest)
    have hr : sep ∉ rest := fun hm => h (List.mem_cons_of_mem _ hm)
    simp [goSplit, hc, ih hr]

theorem goStarts_append (p r : GoStr) : goStarts p (p ++ r) = true := by
  induction p with
  | nil => simp [goStarts, List.isPrefixOf]
  | cons c cs ih => simp [goStarts, List.isPrefixOf] at ih ⊢

theorem goTrimPref_append (p r : GoStr) : goTrimPref p (p ++ r) = r := by
  simp [goTrimPref, goStarts_append, List.drop_left]

theorem trimRight_cons_of_ne_nil {l : GoStr} (c : Char) (h : trimRight l ≠ []) :
    trimRight (c :: l) = c :: trimRight l := by
  cases hh : trimRight l with
  | nil => exact absurd hh h
  | cons a as => simp [trimRight, hh]

theorem trimRight_concat {b : Char} (hb : isGoSpace b = false) (l : GoStr) :
    trimRight (l ++ [b]) = l ++ [b] := by
  induction l with
  | nil => simp [trimRight, hb]
  | cons c rest ih =>
    have h1 : trimRight (rest ++ [b]) ≠ [] := by rw [ih]; simp
    rw [List.cons_append, trimRight_cons_of_ne_nil c h1, ih]

theorem trimRight_cons_cases (c : Char) (l : GoStr) :
    trimRight (c :: l) = [] ∨ ∃ t, trimRight (c :: l) = c :: t := by
  cases hh : trimRight l with
  | nil =>
    by_cases hsp : isGoSpace c
    · left; simp [trimRight, hh, hsp]
    · right; exact ⟨[], by simp [trimRight, hh, hsp]⟩
  | cons a as => right; exact ⟨a :: as, by simp [trimRight, hh]⟩

theorem trimRight_idem (l : GoStr) : trimRight (trimRight l) = trimRight l := by
  induction l with
  | nil => rfl
  | cons c rest ih =>
    cases hh : trimRight rest with
    | nil =>
      by_cases hsp : isGoSpace c
      · simp [trimRight, hh, hsp]
      · simp [trimRight, hh, hsp]
    | cons a as =>
      have h1 : trimRight rest ≠ [] := by rw [hh]; simp
      rw [trimRight_cons_of_ne_nil c h1, hh]
      have h2 : trimRight (a :: as) ≠ [] := by
        rw [← hh, ih, hh]; simp
      rw [trimRight_cons_of_ne_nil c h2, ← hh, ih]

theorem dropWhile_head_false {p : Char → Bool} {l t : GoStr} {c : Char}
    (h : l.dropWhile p = c :: t) : p c = false := by
  induction l with
  | nil => simp at h
  | cons a as ih =>
    by_cases hp : p a
    · rw [List.dropWhile_cons_of_pos hp] at h; exact ih h
    · rw [List.dropWhile_cons_of_neg hp] at h
      injection h with h1 _
      subst h1
      exact Bool.eq_false_iff.mpr hp

theorem goTrimSpace_idem (s : GoStr) : goTrimSpace (goTrimSpace s) = goTrimSpace s := by
  unfold goTrimSpace
  have hdw : (trimRight (s.dropWhile isGoSpace)).dropWhile isGoSpace
      = trimRight (s.dropWhile isGoSpace) := by
    cases hm : s.dropWhile isGoSpace with
    | nil => simp [trimRight]
    | cons c rest =>
      have hc : isGoSpace c = false := dropWhile_head_false hm
      rcases trimRight_cons_cases c rest with h0 | ⟨t, ht⟩
      · rw [h0]; rfl
      · rw [ht]; exact List.dropWhile_cons_of_neg (by simp [hc])
  rw [hdw, trimRight_idem]

theorem goTrimSpace_eq_self {c b : Char} (M : GoStr)
    (hc : isGoSpace c = false) (hb : isGoSpace b = false) :
    goTrimSpace ((c :: M) ++ [b]) = (c :: M) ++ [b] := by
  unfold goTrimSpace
  rw [List.cons_append, List.dropWhile_cons_of_neg (by simp [hc]), ← List.cons_append,
    trimRight_concat hb]

theorem lit_scheme_space : str "XBL3.0 x=" = str "XBL3.0" ++ str " x=" := rfl

theorem lit_scheme_tag : str "XBL3.0 x=" = str "XBL3.0 " ++ str "x=" := rfl

theorem lit_scheme_head : str "XBL3.0 x=" = 'X' :: str "BL3.0 x=" := rfl

/-- Evaluation of the post-trim parser body on a well-formed input whose user
hash and token are free of `;`. -/
theorem parseCore_ok (hash tok : GoStr) (hh : hash ≠ []) (ht : tok ≠ [])
    (hsh : ';' ∉ hash) (hst : ';' ∉ tok) :
    parseCore (str "XBL3.0 x=" ++ hash ++ ';' :: tok) = .ok ⟨tok, [⟨[], [], hash⟩]⟩ := by
  have hne : str "XBL3.0 x=" ++ hash ++ ';' :: tok ≠ [] := by
    rw [lit_scheme_head]; simp
  have hstarts : goStarts (str "XBL3.0") (str "XBL3.0 x=" ++ hash ++ ';' :: tok) = true := by
    rw [lit_scheme_space, List.append_assoc]
    exact goStarts_append _ _
  have htp : goTrimPref (str "XBL3.0 ") (str "XBL3.0 x=" ++ hash ++ ';' :: tok)
      = str "x=" ++ hash ++ ';' :: tok := by
    rw [lit_scheme_tag, List.append_assoc, List.append_assoc, goTrimPref_append,
      ← List.append_assoc]
  have hnosep : ';' ∉ str "x=" ++ hash := by
    intro hmem
    rcases List.mem_append.mp hmem with h | h
    · exact absurd h (by decide)
    · exact hsh h
  have hsplit : goSplit ';' (str "x=" ++ hash ++ ';' :: tok) = [str "x=" ++ hash, tok] := by
    rw [goSplit_append tok hnosep, goSplit_no_sep hst]
  have hxe : goStarts (str "x=") (str "x=" ++ hash) = true := goStarts_append _ _
  have hxt : goTrimPref (str "x=") (str "x=" ++ hash) = hash := goTrimPref_append _ _
  simp only [parseCore]
  rw [if_neg hne, if_neg (by rw [hstarts]; simp), htp, hsplit]
  simp [hh, ht, hxe, hxt]

/-- C1 counterexample input: hash `"h"` and token `" "` are both non-empty
and free of `;`, yet parsing `"XBL3.0 x=h; "` fails (the leading `TrimSpace`
deletes the whitespace-only token), so the claim's universal statement is
false at this input. -/
theorem C1_counterexample :
    (str "h" ≠ [] ∧ str " " ≠ [] ∧ ';' ∉ str "h" ∧ ';' ∉ str " ") ∧
    parseXBL3TokenToStruct (str "XBL3.0 x=h" ++ ';' :: str " ") = .error .emptyXSTS := by
  constructor
  · decide
  · decide

/-- C1 (amended): for non-empty `;`-free hash and token where the token does
not end in whitespace (so the parser's initial `TrimSpace` leaves the input
unchanged), `parseXBL3TokenToStruct` succeeds and returns exactly the hash
as the user-hash claim and the token as the authorization-token value. -/
theorem C1_parse_wellformed (hash tok : GoStr) (hh : hash ≠ []) (ht : tok ≠ [])
    (hsh : ';' ∉ hash) (hst : ';' ∉ tok)
    (hlast : ∀ c, tok.getLast? = some c → isGoSpace c = false) :
    parseXBL3TokenToStruct (str "XBL3.0 x=" ++ hash ++ ';' :: tok)
      = .ok ⟨tok, [⟨[], [], hash⟩]⟩ := by
  obtain ⟨tk, b, rfl⟩ : ∃ tk b, tok = tk ++ [b] := by
    rcases List.eq_nil_or_concat tok with h | ⟨tk, b, h⟩
    · exact absurd h ht
    · exact ⟨tk, b, by rw [h, List.concat_eq_append]⟩
  have hb : isGoSpace b = false := hlast b (by simp)
  have hshape : str "XBL3.0 x=" ++ hash ++ ';' :: (tk ++ [b])
      = ('X' :: (str "BL3.0 x=" ++ hash ++ ';' :: tk)) ++ [b] := by
    rw [lit_scheme_head]
    simp
  have htrim : goTrimSpace (str "XBL3.0 x=" ++ hash ++ ';' :: (tk ++ [b]))
      = str "XBL3.0 x=" ++ hash ++ ';' :: (tk ++ [b]) := by
    rw [hshape, goTrimSpace_eq_self _ (by decide) hb]
  rw [parseXBL3TokenToStruct, htrim, parseCore_ok _ _ hh ht hsh hst]

/-- Closed instance of the C1 amended theorem at hash `"abc"`, token
`"tok"`. -/
theorem C1_parse_wellformed_witness :
    parseXBL3TokenToStruct (str "XBL3.0 x=" ++ str "abc" ++ ';' :: str "tok")
      = .ok ⟨str "tok", [⟨[], [], str "abc"⟩]⟩ :=
  C1_parse_wellformed (str "abc") (str "tok") (by decide) (by decide) (by decide)
    (by decide) (by decide)

/-- C2 counterexample: `" XBL3.0 x=h;t"` does not start with the scheme
string `"XBL3.0"` (it starts with a space), yet parsing succeeds, because
the parser trims surrounding whitespace before validating. -/
theorem C2_counterexample :
    goStarts (str "XBL3.0") (str " XBL3.0 x=h;t") = false ∧
    parseXBL3TokenToStruct (str " XBL3.0 x=h;t") = .ok ⟨str "t", [⟨[], [], str "h"⟩]⟩ := by
  constructor
  · decide
  · decide

/-- Success of the post-trim parser forces every well-formedness condition:
the trimmed input starts with the scheme, splits into exactly two `;`
segments, the first segment carries a non-empty `x=`-tagged hash and the
second is non-empty. -/
theorem parseCore_ok_structure (t : GoStr) (x : XBLToken) (hok : parseCore t = .ok x) :
    goStarts (str "XBL3.0") t = true ∧
    (goSplit ';' (goTrimPref (str "XBL3.0 ") t)).length = 2 ∧
    goStarts (str "x=") ((goSplit ';' (goTrimPref (str "XBL3.0 ") t)).getD 0 []) = true ∧
    goTrimPref (str "x=") ((goSplit ';' (goTrimPref (str "XBL3.0 ") t)).getD 0 []) ≠ [] ∧
    (goSplit ';' (goTrimPref (str "XBL3.0 ") t)).getD 1 [] ≠ [] := by
  simp only [parseCore] at hok
  by_cases h1 : t = []
  · rw [if_pos h1] at hok; cases hok
  rw [if_neg h1] at hok
  by_cases h2 : goStarts (str "XBL3.0") t = false
  · rw [if_pos h2] at hok; cases hok
  rw [if_neg h2] at hok
  by_cases h3 : (goSplit ';' (goTrimPref (str "XBL3.0 ") t)).length ≠ 2
  · rw [if_pos h3] at hok; cases hok
  rw [if_neg h3] at hok
  by_cases h4 : goStarts (str "x=") ((goSplit ';' (goTrimPref (str "XBL3.0 ") t)).getD 0 [])
      = false
  · rw [if_pos h4] at hok; cases hok
  rw [if_neg h4] at hok
  by_cases h5 : goTrimPref (str "x=") ((goSplit ';' (goTrimPref (str "XBL3.0 ") t)).getD 0 [])
      = []
  · rw [if_pos h5] at hok; cases hok
  rw [if_neg h5] at hok
  by_cases h6 : (goSplit ';' (goTrimPref (str "XBL3.0 ") t)).getD 1 [] = []
  · rw [if_pos h6] at hok; cases hok
  exact ⟨by simpa using h2, by omega, by simpa using h4, h5, h6⟩

/-- C2 (amended): the rejection conditions hold of the whitespace-trimmed
input rather than the raw input.  Whenever the trimmed string fails any of
the four format conditions, `parseXBL3TokenToStruct` returns a format error
and no token object. -/
theorem C2_parse_reject (s : GoStr)
    (h : goStarts (str "XBL3.0") (goTrimSpace s) = false
      ∨ (goSplit ';' (goTrimPref (str "XBL3.0 ") (goTrimSpace s))).length ≠ 2
      ∨ goStarts (str "x=")
          ((goSplit ';' (goTrimPref (str "XBL3.0 ") (goTrimSpace s))).getD 0 []) = false
      ∨ goTrimPref (str "x=")
          ((goSplit ';' (goTrimPref (str "XBL3.0 ") (goTrimSpace s))).getD 0 []) = []
      ∨ (goSplit ';' (goTrimPref (str "XBL3.0 ") (goTrimSpace s))).getD 1 [] = []) :
    ∃ e, parseXBL3TokenToStruct s = .error e := by
  cases hres : parseXBL3TokenToStruct s with
  | error e => exact ⟨e, rfl⟩
  | ok x =>
    rw [parseXBL3TokenToStruct] at hres
    obtain ⟨g1, g2, g3, g4, g5⟩ := parseCore_ok_structure _ _ hres
    rcases h with h | h | h | h | h
    · rw [g1] at h; cases h
    · exact absurd g2 h
    · rw [g3] at h; cases h
    · exact absurd h g4
    · exact absurd h g5

/-- Closed instance of the C2 amended theorem: `"garbage"` fails the scheme
check after trimming, so parsing returns a format error. -/
theorem C2_parse_reject_witness : ∃ e, parseXBL3TokenToStruct (str "garbage") = .error e :=
  C2_parse_reject (str "garbage") (Or.inl (by decide))

/-- C10: the parser trims surrounding whitespace before any validation, so
parsing any string gives exactly the same outcome as parsing its trimmed
form; in particular the well-formed token padded with whitespace on both
sides is accepted with the correct hash and token values. -/
theorem C10_parse_trim_invariant :
    (∀ s : GoStr, parseXBL3TokenToStruct s = parseXBL3TokenToStruct (goTrimSpace s)) ∧
    parseXBL3TokenToStruct (str "  XBL3.0 x=h;t  ") = .ok ⟨str "t", [⟨[], [], str "h"⟩]⟩ := by
  constructor
  · intro s
    rw [parseXBL3TokenToStruct, parseXBL3TokenToStruct, goTrimSpace_idem]
  · decide

/-! ### Client registry and broadcast (`chat_server.go` lines 572-584) -/

/-- A registered WebSocket client handle (the `*websocket.Conn` map key),
identified by an opaque id. -/
abbrev Client := Nat

/-- The `Message` struct of `chat_server.go`: JSON fields `type`, `message`,
`sender` (omitempty), `target` (omitempty); the omitted optional fields are
the empty string, exactly as in Go's zero value. -/
structure Message where
  type : GoStr
  message : GoStr
  sender : GoStr
  target : GoStr
deriving DecidableEq, Repr

/-- Observable events of one broadcast pass: a successful `WriteJSON` of a
message to a client, or a failed write followed by `Close` and removal. -/
inductive Ev where
  | delivered (c : Client) (m : Message)
  | closed (c : Client)
deriving DecidableEq, Repr

/-- `broadcastToWebsocket` (`chat_server.go` lines 572-584): iterate the
registered clients, attempt `WriteJSON` on each (`write` is the oracle for
whether the write succeeds); on failure the client is closed and deleted
from the map.  Returns the new registry and the event log of the pass. -/
def broadcastToWebsocket (write : Client → Message → Bool) (m : Message) :
    List Client → List Client × List Ev
  | [] => ([], [])
  | c :: rest =>
    if write c m then
      (c :: (broadcastToWebsocket write m rest).1,
        .delivered c m :: (broadcastToWebsocket write m rest).2)
    else
      ((broadcastToWebsocket write m rest).1,
        .closed c :: (broadcastToWebsocket write m rest).2)

theorem broadcast_mem_fst (write : Client → Message → Bool) (m : Message)
    (cs : List Client) (x : Client) :
    x ∈ (broadcastToWebsocket write m cs).1 ↔ x ∈ cs ∧ write x m = true := by
  induction cs with
  | nil => simp [broadcastToWebsocket]
  | cons c rest ih =>
    by_cases hw : write c m = true
    · simp only [broadcastToWebsocket, if_pos hw, List.mem_cons]
      rw [ih]
      constructor
      · rintro (h | ⟨h1, h2⟩)
        · subst h; exact ⟨Or.inl rfl, hw⟩
        · exact ⟨Or.inr h1, h2⟩
      · rintro ⟨h1 | h1, h2⟩
        · subst h1; exact Or.inl rfl
        · exact Or.inr ⟨h1, h2⟩
    · simp only [broadcastToWebsocket, if_neg hw]
      rw [ih]
      constructor
      · rintro ⟨h1, h2⟩; exact ⟨List.mem_cons_of_mem _ h1, h2⟩
      · rintro ⟨h1, h2⟩
        rcases List.mem_cons.mp h1 with h | h
        · subst h; exact absurd h2 hw
        · exact ⟨h, h2⟩

theorem broadcast_delivered_mem (write : Client → Message → Bool) (m m' : Message)
    (cs : List Client) (x : Client) :
    Ev.delivered x m' ∈ (broadcastToWebsocket write m cs).2 ↔
      x ∈ cs ∧ m' = m ∧ write x m = true := by
  induction cs with
  | nil => simp [broadcastToWebsocket]
  | cons c rest ih =>
    by_cases hw : write c m = true
    · simp only [broadcastToWebsocket, if_pos hw, List.mem_cons]
      rw [ih]
      constructor
      · rintro (h | ⟨h1, h2, h3⟩)
        · injection h with h1 h2; subst h1; subst h2; exact ⟨Or.inl rfl, rfl, hw⟩
        · exact ⟨Or.inr h1, h2, h3⟩
      · rintro ⟨h1 | h1, h2, h3⟩
        · subst h1; subst h2; exact Or.inl rfl
        · exact Or.inr ⟨h1, h2, h3⟩
    · simp only [broadcastToWebsocket, if_neg hw, List.mem_cons]
      rw [ih]
      constructor
      · rintro (h | ⟨h1, h2, h3⟩)
        · cases h
        · exact ⟨Or.inr h1, h2, h3⟩
      · rintro ⟨h1 | h1, h2, h3⟩
        · subst h1; exact absurd h3 hw
        · exact Or.inr ⟨h1, h2, h3⟩

theorem broadcast_closed_mem (write : Client → Message → Bool) (m : Message)
    (cs : List Client) (x : Client) :
    Ev.closed x ∈ (broadcastToWebsocket write m cs).2 ↔
      x ∈ cs ∧ write x m = false := by
  induction cs with
  | nil => simp [broadcastToWebsocket]
  | cons c rest ih =>
    by_cases hw : write c m = true
    · simp only [broadcastToWebsocket, if_pos hw, List.mem_cons]
      rw [ih]
      constructor
      · rintro (h | ⟨h1, h2⟩)
        · cases h
        · exact ⟨Or.inr h1, h2⟩
      · rintro ⟨h1 | h1, h2⟩
        · subst h1; rw [hw] at h2; cases h2
        · exact Or.inr ⟨h1, h2⟩
    · simp only [broadcastToWebsocket, if_neg hw, List.mem_cons]
      rw [ih]
      constructor
      · rintro (h | ⟨h1, h2⟩)
        · injection h with h1; subst h1
          exact ⟨Or.inl rfl, Bool.eq_false_iff.mpr hw⟩
        · exact ⟨Or.inr h1, h2⟩
      · rintro ⟨h1 | h1, h2⟩
        · subst h1; exact Or.inl rfl
        · exact Or.inr ⟨h1, h2⟩

/-- C3: a broadcast pass attempts delivery to every client registered at
call time — those whose write succeeds receive the message, those whose
write fails are closed and removed from the registry in the same pass — and
a client absent from the resulting registry receives nothing from any
subsequent broadcast over that registry. -/
theorem C3_broadcast_selfheal (write : Client → Message → Bool) (m : Message)
    (cs : List Client) (c : Client) (hc : c ∈ cs) :
    (write c m = true → Ev.delivered c m ∈ (broadcastToWebsocket write m cs).2) ∧
    (write c m = false → Ev.closed c ∈ (broadcastToWebsocket write m cs).2 ∧
      c ∉ (broadcastToWebsocket write m cs).1) ∧
    (∀ write2 m2, c ∉ (broadcastToWebsocket write m cs).1 →
      Ev.delivered c m2 ∉
        (broadcastToWebsocket write2 m2 (broadcastToWebsocket write m cs).1).2) := by
  refine ⟨fun hw => ?_, fun hw => ⟨?_, ?_⟩, fun write2 m2 hout hmem => ?_⟩
  · exact (broadcast_delivered_mem write m m cs c).mpr ⟨hc, rfl, hw⟩
  · exact (broadcast_closed_mem write m cs c).mpr ⟨hc, hw⟩
  · intro hmem
    exact absurd ((broadcast_mem_fst write m cs c).mp hmem).2 (by simp [hw])
  · exact hout ((broadcast_delivered_mem write2 m2 m2 _ c).mp hmem).1

/-- Closed instance of C3: registry `[0, 1]`, writes to client `1` fail; the
theorem yields that `1` is closed, removed, and unreachable by the following
broadcast. -/
theorem C3_broadcast_selfheal_witness :
    (Ev.closed 1 ∈ (broadcastToWebsocket (fun c _ => c == 0) ⟨str "chat", str "hi", [], []⟩
        [0, 1]).2 ∧
      1 ∉ (broadcastToWebsocket (fun c _ => c == 0) ⟨str "chat", str "hi", [], []⟩ [0, 1]).1) ∧
    Ev.delivered 1 ⟨str "chat", str "yo", [], []⟩ ∉
      (broadcastToWebsocket (fun c _ => c == 0) ⟨str "chat", str "yo", [], []⟩
        (broadcastToWebsocket (fun c _ => c == 0) ⟨str "chat", str "hi", [], []⟩ [0, 1]).1).2 := by
  have h := C3_broadcast_selfheal (fun c _ => c == 0) ⟨str "chat", str "hi", [], []⟩
    [0, 1] 1 (by decide)
  refine ⟨h.2.1 (by decide), h.2.2 (fun c _ => c == 0) ⟨str "chat", str "yo", [], []⟩ ?_⟩
  exact (h.2.1 (by decide)).2

/-! ### Upstream chat relay and outbound send (`chat_server.go` lines
740-783, 398-459) -/

/-- gophertunnel `packet.TextTypeChat`. -/
def textTypeChat : Nat := 1

/-- gophertunnel `packet.TextTypeWhisper`. -/
def textTypeWhisper : Nat := 7

/-- The fields of gophertunnel's `packet.Text` that the repository reads or
writes. -/
structure TextPacket where
  textType : Nat
  needsTranslation : Bool
  sourceName : GoStr
  message : GoStr
  xuid : GoStr
  parameters : List GoStr
deriving DecidableEq, Repr

/-- `handleMinecraftChatMessage` (`chat_server.go` lines 740-756): ignore
packets whose text type is not chat, otherwise broadcast a `Message` with
type `"chat"`, the packet body and the packet source name (target omitted,
i.e. the Go zero string). -/
def handleMinecraftChatMessage (write : Client → Message → Bool)
    (clients : List Client) (p : TextPacket) : List Client × List Ev :=
  if p.textType ≠ textTypeChat then (clients, [])
  else broadcastToWebsocket write ⟨str "chat", p.message, p.sourceName, []⟩ clients

theorem broadcast_count_delivered (write : Client → Message → Bool) (m : Message)
    (cs : List Client) (c : Client) (hnd : cs.Nodup) (hc : c ∈ cs)
    (hw : write c m = true) :
    (broadcastToWebsocket write m cs).2.count (Ev.delivered c m) = 1 := by
  induction cs with
  | nil => cases hc
  | cons a rest ih =>
    obtain ⟨hna, hndr⟩ := List.nodup_cons.mp hnd
    rcases List.mem_cons.mp hc with rfl | hcr
    · simp only [broadcastToWebsocket, if_pos hw]
      rw [List.count_cons_self]
      have hzero : (broadcastToWebsocket write m rest).2.count (Ev.delivered c m) = 0 := by
        rw [List.count_eq_zero]
        intro hmem
        exact hna ((broadcast_delivered_mem write m m rest c).mp hmem).1
      omega
    · have hne : c ≠ a := fun h => hna (h ▸ hcr)
      by_cases hwa : write a m = true
      · simp only [broadcastToWebsocket, if_pos hwa]
        rw [List.count_cons_of_ne (by intro h; injection h with h1 h2; exact hne h1),
          ih hndr hcr]
      · simp only [broadcastToWebsocket, if_neg hwa]
        rw [List.count_cons_of_ne (by simp), ih hndr hcr]

/-- C6: for every upstream chat-type text packet, the handler broadcasts to
the full registry a message with type `"chat"`, sender equal to the packet's
source name and body equal to the packet's message; every registered client
whose channel write succeeds receives exactly one such message. -/
theorem C6_upstream_chat_delivery (write : Client → Message → Bool)
    (clients : List Client) (p : TextPacket) (c : Client)
    (hp : p.textType = textTypeChat) (hnd : clients.Nodup) (hc : c ∈ clients)
    (hw : write c ⟨str "chat", p.message, p.sourceName, []⟩ = true) :
    (handleMinecraftChatMessage write clients p).2.count
      (Ev.delivered c ⟨str "chat", p.message, p.sourceName, []⟩) = 1 := by
  rw [handleMinecraftChatMessage, if_neg (by simp [hp])]
  exact broadcast_count_delivered write _ clients c hnd hc hw

/-- Closed instance of C6: upstream chat from `"Steve"` saying `"hello"`
reaches each of the two registered clients exactly once. -/
theorem C6_upstream_chat_delivery_witness :
    (handleMinecraftChatMessage (fun _ _ => true) [0, 1]
        ⟨textTypeChat, false, str "Steve", str "hello", [], []⟩).2.count
      (Ev.delivered 0 ⟨str "chat", str "hello", str "Steve", []⟩) = 1 :=
  C6_upstream_chat_delivery (fun _ _ => true) [0, 1]
    ⟨textTypeChat, false, str "Steve", str "hello", [], []⟩ 0
    rfl (by decide) (by decide) rfl

/-- The Minecraft connection reference (`minecraftConn`), absent when no
upstream session is live. -/
abbrev Conn := Nat

/-- Outcome of `sendChatToMinecraft`: the guard clause for a missing
connection, or the text packet handed to `WritePacket`. -/
inductive SendResult where
  | notConnected
  | wrote (p : TextPacket)
deriving DecidableEq, Repr

/-- `sendChatToMinecraft` (`chat_server.go` lines 759-783, the final
definition): return at once when `minecraftConn` is nil; otherwise build a
chat text packet carrying the configured display name and the message, copy
a non-empty `target` into the packet's `XUID` field, and write it. -/
def sendChatToMinecraft (conn : Option Conn) (displayName message target : GoStr) :
    SendResult :=
  match conn with
  | none => .notConnected
  | some _ =>
    if target ≠ [] then .wrote ⟨textTypeChat, false, displayName, message, target, []⟩
    else .wrote ⟨textTypeChat, false, displayName, message, [], []⟩

/-- The command-string computation of the middle `sendChatToMinecraft`
definition (`chat_server.go` lines 407-418): a non-empty target other than
`"all"` becomes a `/tell` whisper command, anything else is sent as the
plain message. -/
def encodeCommand (message target : GoStr) : GoStr :=
  if target ≠ [] ∧ target ≠ str "all" then str "/tell " ++ target ++ str " " ++ message
  else message

/-- C4: with no upstream connection, sending fails with the not-connected
guard for every message and target, no packet is produced, and (the model
carrying the entire state) nothing is buffered. -/
theorem C4_send_requires_connection (displayName message target : GoStr) :
    sendChatToMinecraft none displayName message target = .notConnected ∧
    ∀ p, sendChatToMinecraft none displayName message target ≠ .wrote p := by
  refine ⟨rfl, fun p h => ?_⟩
  simp [sendChatToMinecraft] at h

/-- Closed instance of C4: with no connection, sending `"hi"` to `"bob"`
reports the not-connected guard and produces no packet. -/
theorem C4_send_requires_connection_witness :
    sendChatToMinecraft none (str "g") (str "hi") (str "bob") = .notConnected ∧
    sendChatToMinecraft none (str "g") (str "hi") (str "bob")
      ≠ .wrote ⟨textTypeChat, false, str "g", str "hi", str "bob", []⟩ :=
  ⟨(C4_send_requires_connection (str "g") (str "hi") (str "bob")).1,
    (C4_send_requires_connection (str "g") (str "hi") (str "bob")).2 _⟩

/-- C5 counterexample: with the sentinel target `"all"`, the final
`sendChatToMinecraft` emits a packet whose `XUID` field is set to `"all"` —
a directed-target marker — rather than a broadcast packet with no directed
target. -/
theorem C5_counterexample :
    sendChatToMinecraft (some 0) (str "gopher") (str "hi") (str "all")
      = .wrote ⟨textTypeChat, false, str "gopher", str "hi", str "all", []⟩ ∧
    (⟨textTypeChat, false, str "gopher", str "hi", str "all", []⟩ : TextPacket).xuid ≠ [] := by
  constructor
  · rfl
  · decide

/-- C5 (amended): in the command-based encoder an empty or `"all"` target
yields the plain message (broadcast) and any other target a directed
`/tell` command; in the final packet-based sender only an empty target
yields a packet with no directed target, while any non-empty target —
including the sentinel `"all"` — is copied into the packet's `XUID` field
with the text type remaining chat. -/
theorem C5_target_encoding (conn : Conn) (name msg target : GoStr) :
    ((target = [] ∨ target = str "all") → encodeCommand msg target = msg) ∧
    (target ≠ [] → target ≠ str "all" →
      encodeCommand msg target = str "/tell " ++ target ++ str " " ++ msg) ∧
    (target = [] → sendChatToMinecraft (some conn) name msg target
      = .wrote ⟨textTypeChat, false, name, msg, [], []⟩) ∧
    (target ≠ [] → sendChatToMinecraft (some conn) name msg target
      = .wrote ⟨textTypeChat, false, name, msg, target, []⟩) := by
  refine ⟨fun h => ?_, fun h1 h2 => ?_, fun h => ?_, fun h => ?_⟩
  · rw [encodeCommand, if_neg]
    rintro ⟨h1, h2⟩
    rcases h with rfl | rfl
    · exact h1 rfl
    · exact h2 rfl
  · rw [encodeCommand, if_pos ⟨h1, h2⟩]
  · subst h; simp [sendChatToMinecraft]
  · simp only [sendChatToMinecraft]
    rw [if_pos h]

/-- Closed instance of C5 (amended): target `"all"` encodes as the plain
broadcast command, and target `"bob"` is copied into the packet's `XUID`
field. -/
theorem C5_target_encoding_witness :
    encodeCommand (str "hi") (str "all") = str "hi" ∧
    sendChatToMinecraft (some 0) (str "g") (str "hi") (str "bob")
      = .wrote ⟨textTypeChat, false, str "g", str "hi", str "bob", []⟩ :=
  ⟨(C5_target_encoding 0 (str "g") (str "hi") (str "all")).1 (Or.inr rfl),
    (C5_target_encoding 0 (str "g") (str "hi") (str "bob")).2.2.2 (by decide)⟩

/-! ### Auth chain builder (`auth.go` lines 125-182) -/

/-- An ECDSA keypair, opaque to the logic under verification. -/
abbrev Key := Nat

/-- Errors of the authentication path: an opaque error from an external
call, the `"XBL token missing user information"` error, the wrapper for a
Live-token failure, and the final `"failed to get XBL token with any relying
party: %w"` wrapper around the last retained cause. -/
inductive XErr where
  | external (code : Nat)
  | missingUserInfo
  | wrappedLive (cause : XErr)
  | allFailed (cause : Option XErr)

/-- The `relyingParties` list of `AuthenticateWithPythonXBL3`, in source
order. -/
def relyingParties : List GoStr :=
  [str "https://multiplayer.minecraft.net/", str "http://xboxlive.com",
    str "https://sisu.xboxlive.com/"]

/-- Whether a relying-party exchange result is a token with non-empty
user-identity claims (the loop's acceptance test). -/
def isGoodTok : Except XErr XBLToken → Bool
  | .ok t => !t.userInfo.isEmpty
  | .error _ => false

/-- The cause retained in `lastErr` when a candidate is skipped: the
exchange error itself, or the missing-user-information error for a token
without identity claims. -/
def skipCause : Except XErr XBLToken → XErr
  | .error e => e
  | .ok _ => .missingUserInfo

/-- The `for _, rp := range relyingParties` loop of
`AuthenticateWithPythonXBL3` (`auth.go` lines 155-181), with the running
`lastErr` made explicit: an exchange error or a token without user claims
updates `lastErr` and continues; the first acceptable token is returned;
exhaustion wraps the retained `lastErr`. -/
def authLoop (req : GoStr → Except XErr XBLToken) :
    List GoStr → Option XErr → Except XErr XBLToken
  | [], lastErr => .error (.allFailed lastErr)
  | rp :: rest, _lastErr =>
    match req rp with
    | .error e => authLoop req rest (some e)
    | .ok tok =>
      if tok.userInfo = [] then authLoop req rest (some .missingUserInfo)
      else .ok tok

/-- The value of `lastErr` after the loop has skipped every candidate in
the list, starting from `le`. -/
def finalCause (req : GoStr → Except XErr XBLToken) :
    List GoStr → Option XErr → Option XErr
  | [], le => le
  | rp :: rest, _le => finalCause req rest (some (skipCause (req rp)))

/-- `AuthenticateWithPythonXBL3` (`auth.go` lines 125-182): generate a key
(passed in as `key`, since generation cannot fail in the model), request one
Live token (`liveReq` is that single call's result), then run the
relying-party loop; on success return the token together with the keypair. -/
def AuthenticateWithPythonXBL3 (key : Key) (liveReq : Except XErr Nat)
    (req : Nat → GoStr → Except XErr XBLToken) : Except XErr (XBLToken × Key) :=
  match liveReq with
  | .error e => .error (.wrappedLive e)
  | .ok lt =>
    match authLoop (req lt) relyingParties none with
    | .error e => .error e
    | .ok tok => .ok (tok, key)

theorem authLoop_first_good (req : GoStr → Except XErr XBLToken) (l r : List GoStr)
    (rp : GoStr) (tok : XBLToken) (hbefore : ∀ q ∈ l, isGoodTok (req q) = false)
    (hgood : req rp = .ok tok) (hui : tok.userInfo ≠ []) :
    ∀ le, authLoop req (l ++ rp :: r) le = .ok tok := by
  induction l with
  | nil =>
    intro le
    simp only [List.nil_append, authLoop, hgood]
    rw [if_neg hui]
  | cons q qs ih =>
    intro le
    have hq : isGoodTok (req q) = false := hbefore q (List.mem_cons_self _ _)
    have hqs : ∀ x ∈ qs, isGoodTok (req x) = false :=
      fun x hx => hbefore x (List.mem_cons_of_mem _ hx)
    cases hrq : req q with
    | error e =>
      simp only [List.cons_append, authLoop, hrq]
      exact ih hqs _
    | ok t =>
      have ht : t.userInfo = [] := by
        rw [hrq] at hq
        simpa [isGoodTok, List.isEmpty_iff] using hq
      simp only [List.cons_append, authLoop, hrq, if_pos ht]
      exact ih hqs _

theorem authLoop_all_fail (req : GoStr → Except XErr XBLToken) (l : List GoStr)
    (hall : ∀ q ∈ l, isGoodTok (req q) = false) :
    ∀ le, authLoop req l le = .error (.allFailed (finalCause req l le)) := by
  induction l with
  | nil => intro le; rfl
  | cons q qs ih =>
    intro le
    have hq : isGoodTok (req q) = false := hall q (List.mem_cons_self _ _)
    have hqs : ∀ x ∈ qs, isGoodTok (req x) = false :=
      fun x hx => hall x (List.mem_cons_of_mem _ hx)
    cases hrq : req q with
    | error e =>
      simp only [authLoop, hrq, finalCause, skipCause]
      exact ih hqs _
    | ok t =>
      have ht : t.userInfo = [] := by
        rw [hrq] at hq
        simpa [isGoodTok, List.isEmpty_iff] using hq
      simp only [authLoop, hrq, if_pos ht, finalCause, skipCause]
      exact ih hqs _

/-- C7: with a single identity assertion shared by all candidates, the
builder scans the relying-party list in order; the first candidate whose
exchange yields a token with non-empty user-identity claims wins and is
returned together with the keypair, earlier candidates being skipped; when
every candidate is skipped, the returned error wraps the cause retained
from the last candidate. -/
theorem C7_relying_party_order (key : Key) (lt : Nat)
    (req : Nat → GoStr → Except XErr XBLToken) :
    (∀ l r rp tok, relyingParties = l ++ rp :: r →
      (∀ q ∈ l, isGoodTok (req lt q) = false) →
      req lt rp = .ok tok → tok.userInfo ≠ [] →
      AuthenticateWithPythonXBL3 key (.ok lt) req = .ok (tok, key)) ∧
    ((∀ q ∈ relyingParties, isGoodTok (req lt q) = false) →
      AuthenticateWithPythonXBL3 key (.ok lt) req =
        .error (.allFailed (some (skipCause (req lt (str "https://sisu.xboxlive.com/")))))) := by
  constructor
  · intro l r rp tok hsplit hbefore hgood hui
    simp only [AuthenticateWithPythonXBL3]
    rw [hsplit, authLoop_first_good (req lt) l r rp tok hbefore hgood hui none]
  · intro hall
    simp only [AuthenticateWithPythonXBL3]
    rw [authLoop_all_fail (req lt) relyingParties hall none]
    rfl

/-- Closed instance of C7: the first candidate errors, the second yields a
token with user claims; the builder returns that token with the key. -/
theorem C7_relying_party_order_witness :
    AuthenticateWithPythonXBL3 7 (.ok 0)
        (fun _ rp => if rp = str "http://xboxlive.com"
          then .ok ⟨[], [⟨[], [], str "h"⟩]⟩ else .error (.external 0))
      = .ok (⟨[], [⟨[], [], str "h"⟩]⟩, 7) :=
  (C7_relying_party_order 7 0
      (fun _ rp => if rp = str "http://xboxlive.com"
        then .ok ⟨[], [⟨[], [], str "h"⟩]⟩ else .error (.external 0))).1
    [str "https://multiplayer.minecraft.net/"] [str "https://sisu.xboxlive.com/"]
    (str "http://xboxlive.com") ⟨[], [⟨[], [], str "h"⟩]⟩
    rfl (by decide) rfl (by decide)

/-! ### Connection manager loop (`chat_server.go` lines 587-675) -/

/-- A transport-level dial failure. -/
inductive DialErr where
  | dialFailed (code : Nat)
deriving DecidableEq, Repr

/-- The external-call results available to one iteration of the
`connectMinecraft` for-loop; every field is an oracle for a call made inside
that iteration, so nothing here can be shared between iterations. -/
structure Attempt where
  defaultDial : Except DialErr Conn
  auth : Except XErr (XBLToken × Key)
  chainReq : XBLToken → Key → Except XErr GoStr
  customDial : GoStr → Except DialErr Conn

/-- The credentials with which a connection was established: the built-in
`auth.TokenSource` (online default path), no credentials (offline mode), or
the custom chain and keypair built in the same iteration. -/
inductive Creds where
  | builtin
  | offline
  | custom (chain : GoStr) (key : Key)

/-- One iteration of the `connectMinecraft` for-loop (`chat_server.go`
lines 588-674): dial with the default dialer; on failure in online mode run
`AuthenticateWithPythonXBL3`, request the Minecraft chain with the returned
token and key, wrap it as the token source, and dial again; any failure
ends the iteration with no connection (the code sleeps and continues). -/
def connectAttempt (online : Bool) (a : Attempt) : Option (Conn × Creds) :=
  match a.defaultDial with
  | .ok c => some (c, if online then .builtin else .offline)
  | .error _ =>
    if online then
      match a.auth with
      | .error _ => none
      | .ok (tok, key) =>
        match a.chainReq tok key with
        | .error _ => none
        | .ok chain =>
          match a.customDial chain with
          | .ok c => some (c, .custom chain key)
          | .error _ => none
    else none

/-- The for-loop run over a list of per-iteration oracles, stopping at the
first established connection.  The loop carries no state between
iterations: each iteration sees only its own `Attempt`. -/
def connectLoop (online : Bool) : List Attempt → Option (Conn × Creds)
  | [] => none
  | a :: rest =>
    match connectAttempt online a with
    | some r => some r
    | none => connectLoop online rest

theorem connectAttempt_custom_inv (online : Bool) (a : Attempt) (c : Conn)
    (ch : GoStr) (k : Key)
    (h : connectAttempt online a = some (c, .custom ch k)) :
    online = true ∧ (∃ de, a.defaultDial = .error de) ∧
    ∃ tok, a.auth = .ok (tok, k) ∧ a.chainReq tok k = .ok ch ∧
      a.customDial ch = .ok c := by
  unfold connectAttempt at h
  split at h
  · rename_i c0 hd
    cases online <;> simp at h
  · rename_i de hd
    split at h
    · rename_i hon
      split at h
      · cases h
      · rename_i tok key ha
        split at h
        · cases h
        · rename_i chain hcr
          split at h
          · rename_i c0 hcd
            simp only [Option.some.injEq, Prod.mk.injEq, Creds.custom.injEq] at h
            obtain ⟨rfl, rfl, rfl⟩ := h
            exact ⟨by simpa using hon, ⟨de, hd⟩, tok, ha, hcr, hcd⟩
          · cases h
    · cases h

theorem connectLoop_first (online : Bool) (as : List Attempt) (r : Conn × Creds)
    (h : connectLoop online as = some r) :
    ∃ i, ∃ hi : i < as.length,
      connectAttempt online (as.get ⟨i, hi⟩) = some r ∧
      ∀ j, ∀ hj : j < as.length, j < i → connectAttempt online (as.get ⟨j, hj⟩) = none := by
  induction as with
  | nil => cases h
  | cons a rest ih =>
    cases hca : connectAttempt online a with
    | some r0 =>
      unfold connectLoop at h
      rw [hca] at h
      refine ⟨0, by simp, ?_, fun j hj hj0 => absurd hj0 (by omega)⟩
      simpa [hca] using h
    | none =>
      unfold connectLoop at h
      rw [hca] at h
      obtain ⟨i, hi, h1, h2⟩ := ih h
      refine ⟨i + 1, by simpa using Nat.succ_lt_succ hi, h1, ?_⟩
      intro j hj hji
      cases j with
      | zero => exact hca
      | succ j0 => exact h2 j0 (by simpa using Nat.lt_of_succ_lt_succ hj) (by omega)

/-- C8: whenever the loop establishes a connection with custom credentials,
there is an iteration `i` such that every earlier iteration produced
nothing, the mode is online, the default dial of iteration `i` failed, and
the connected session's key and chain are exactly the outputs of iteration
`i`'s own authentication and chain-request calls — no credential is carried
over from an earlier iteration (each iteration only sees its own oracles);
moreover, provided the chain service never returns an empty chain, the
connected chain is non-empty. -/
theorem C8_fresh_credentials (online : Bool) (as : List Attempt) (c : Conn)
    (ch : GoStr) (k : Key)
    (hchain : ∀ a ∈ as, ∀ tok key ch0, a.chainReq tok key = .ok ch0 → ch0 ≠ [])
    (h : connectLoop online as = some (c, .custom ch k)) :
    ∃ i, ∃ hi : i < as.length,
      (∀ j, ∀ hj : j < as.length, j < i → connectAttempt online (as.get ⟨j, hj⟩) = none) ∧
      online = true ∧
      (∃ de, (as.get ⟨i, hi⟩).defaultDial = .error de) ∧
      (∃ tok, (as.get ⟨i, hi⟩).auth = .ok (tok, k) ∧
        (as.get ⟨i, hi⟩).chainReq tok k = .ok ch ∧
        (as.get ⟨i, hi⟩).customDial ch = .ok c) ∧
      ch ≠ [] := by
  obtain ⟨i, hi, h1, h2⟩ := connectLoop_first online as _ h
  obtain ⟨hon, hdef, tok, hauth, hcr, hcd⟩ := connectAttempt_custom_inv online _ c ch k h1
  exact ⟨i, hi, h2, hon, hdef, ⟨tok, hauth, hcr, hcd⟩,
    hchain _ (as.get_mem _ _) tok k ch hcr⟩

/-- A first iteration whose oracles all fail (used by the C8 witness). -/
def attemptAllFails : Attempt :=
  ⟨.error (.dialFailed 0), .error .missingUserInfo,
    fun _ _ => .error .missingUserInfo, fun _ => .error (.dialFailed 1)⟩

/-- A second iteration whose default dial fails but whose custom
authentication path succeeds (used by the C8 witness). -/
def attemptCustomOk : Attempt :=
  ⟨.error (.dialFailed 2), .ok (⟨[], [⟨[], [], str "h"⟩]⟩, 5),
    fun _ _ => .ok (str "chain"), fun _ => .ok 9⟩

/-- Closed instance of C8: after one fully failed iteration, the second
iteration connects with the chain and key freshly produced inside it. -/
theorem C8_fresh_credentials_witness :
    ∃ i, ∃ hi : i < ([attemptAllFails, attemptCustomOk] : List Attempt).length,
      (∀ j, ∀ hj : j < ([attemptAllFails, attemptCustomOk] : List Attempt).length, j < i →
        connectAttempt true (([attemptAllFails, attemptCustomOk] : List Attempt).get ⟨j, hj⟩)
          = none) ∧
      true = true ∧
      (∃ de, (([attemptAllFails, attemptCustomOk] : List Attempt).get ⟨i, hi⟩).defaultDial
        = .error de) ∧
      (∃ tok, (([attemptAllFails, attemptCustomOk] : List Attempt).get ⟨i, hi⟩).auth
          = .ok (tok, 5) ∧
        (([attemptAllFails, attemptCustomOk] : List Attempt).get ⟨i, hi⟩).chainReq tok 5
          = .ok (str "chain") ∧
        (([attemptAllFails, attemptCustomOk] : List Attempt).get ⟨i, hi⟩).customDial
          (str "chain") = .ok 9) ∧
      str "chain" ≠ ([] : GoStr) := by
  refine C8_fresh_credentials true [attemptAllFails, attemptCustomOk] 9 (str "chain") 5
    ?_ rfl
  intro a ha tok key ch0 hc
  rcases List.mem_cons.mp ha with rfl | ha2
  · cases hc
  rcases List.mem_cons.mp ha2 with rfl | ha3
  · cases hc with
    | refl => decide
  · cases ha3

/-! ### Delay discipline of the connection loop (C9) -/

/-- The externally observable pacing events of `connectMinecraft`: a call
to `dialer.Dial` and a call to `time.Sleep` (seconds). -/
inductive LoopEv where
  | dialAttempt
  | sleepSeconds (n : Nat)
deriving DecidableEq, Repr

/-- The pacing trace of one iteration of the `connectMinecraft` for-loop
(`chat_server.go` lines 588-674), read off the source: a successful default
dial falls through to the success path with neither `return` nor sleep; all
failure paths sleep 10 seconds before `continue`; the online fallback dials
a second time immediately after authentication. -/
def attemptTrace (online : Bool) (a : Attempt) : List LoopEv :=
  match a.defaultDial with
  | .ok _ => [.dialAttempt]
  | .error _ =>
    if online then
      match a.auth with
      | .error _ => [.dialAttempt, .sleepSeconds 10]
      | .ok (tok, key) =>
        match a.chainReq tok key with
        | .error _ => [.dialAttempt, .sleepSeconds 10]
        | .ok chain =>
          match a.customDial chain with
          | .ok _ => [.dialAttempt, .dialAttempt]
          | .error _ => [.dialAttempt, .dialAttempt, .sleepSeconds 10]
    else [.dialAttempt, .sleepSeconds 10]

/-- The pacing trace of the loop: the `for` statement has no `break` or
`return` in its body, so after every iteration — the successful ones
included — control returns to the top and the next iteration begins. -/
def connectTrace (online : Bool) : List Attempt → List LoopEv
  | [] => []
  | a :: rest => attemptTrace online a ++ connectTrace online rest

/-- The pacing property C9 claims: no dial is immediately followed by
another dial with no sleep in between. -/
def noImmediateRedial : List LoopEv → Bool
  | .dialAttempt :: .dialAttempt :: _ => false
  | _ :: rest => noImmediateRedial rest
  | [] => true

/-- An iteration whose default dial succeeds (used for the C9 failing
input). -/
def attemptDialOk : Attempt :=
  ⟨.ok 7, .error .missingUserInfo, fun _ _ => .error .missingUserInfo,
    fun _ => .error (.dialFailed 0)⟩

/-- C9 is violated by the code: after an iteration whose dial succeeds, the
loop immediately begins the next dial with no intervening sleep (the
success path of the for-loop has neither `return` nor delay), so the trace
of two successful iterations is dial-dial and the no-immediate-redial
property is false; by contrast a failed offline iteration does sleep 10
seconds before the next dial. -/
theorem C9_busy_redial_after_success :
    connectTrace true [attemptDialOk, attemptDialOk]
      = [.dialAttempt, .dialAttempt] ∧
    noImmediateRedial (connectTrace true [attemptDialOk, attemptDialOk]) = false ∧
    attemptTrace false attemptAllFails = [.dialAttempt, .sleepSeconds 10] ∧
    noImmediateRedial (connectTrace false [attemptAllFails, attemptAllFails]) = true := by
  refine ⟨rfl, rfl, rfl, rfl⟩

end GopherSnake
